import Mathlib

/-!
Verification of the HTTP response engine of `src/HttpResponse.h` (uWebSockets).

The embedding is shallow: the per-response flag word `HttpResponseData::state`
becomes a record of four booleans, each `Super::write` emission becomes a tagged
wire item, and the non-blocking transport (AsyncSocket, which is not part of the
sources under study) is modelled from the spec as a script of per-call outcomes.
-/

namespace UWS

/-- `INT_MAX`, the per-call size cap used by `internalEnd`'s write loop. -/
def INT_MAX : Nat := 2 ^ 31 - 1

/-- The general timeout for HTTP sockets (`HTTP_TIMEOUT_S`). -/
def HTTP_TIMEOUT_S : Nat := 10

/-- Per-response data (`HttpResponseData`): the `state` flag word split into its
four bits (`HTTP_STATUS_CALLED`, `HTTP_WRITE_CALLED`, `HTTP_END_CALLED`,
`HTTP_RESPONSE_PENDING`), the body byte `offset`, and whether the `onAborted`
and `onWritable` callbacks are currently attached. -/
structure HttpResponseData where
  statusCalled : Bool
  writeCalled : Bool
  endCalled : Bool
  responsePending : Bool
  offset : Nat
  onAborted : Bool
  onWritable : Bool
deriving DecidableEq

/-- A fresh response: no flags set except `HTTP_RESPONSE_PENDING`. -/
def initialState : HttpResponseData :=
  { statusCalled := false, writeCalled := false, endCalled := false,
    responsePending := true, offset := 0, onAborted := false, onWritable := false }

/-- One syntactic unit handed to `Super::write`, tagged by the emitting source
line so that protocol elements (status lines, chunk headers) are identifiable. -/
inductive WireItem where
  | statusLine (status : String)
  | headerLine (key value : String)
  | chunkHeader (len : Nat)
  | chunkTerm
  | raw (s : String)
deriving DecidableEq

/-- Lowercase hexadecimal rendering, as `utils::u32toaHex` produces. -/
def toHex (n : Nat) : String := String.mk (Nat.toDigits 16 n)

/-- The exact bytes of one wire item. -/
def renderItem : WireItem → List Char
  | WireItem.statusLine s => ("HTTP/1.1 " ++ s ++ "\r\n").data
  | WireItem.headerLine k v => (k ++ ": " ++ v ++ "\r\n").data
  | WireItem.chunkHeader len => ("\r\n" ++ toHex len ++ "\r\n").data
  | WireItem.chunkTerm => "\r\n0\r\n\r\n".data
  | WireItem.raw s => s.data

/-- The exact bytes of a sequence of wire items. -/
def render : List WireItem → List Char
  | [] => []
  | it :: rest => renderItem it ++ render rest

/-- Modelled from the spec: the transport contract
`attempt_write(bytes, is_optional) -> (bytes_accepted, failed)` of the
AsyncSocket layer (not under the sources studied here).  A script lists, for
each transport call whose result the response code observes, how many bytes the
transport accepts and whether it reports failure; an exhausted script means the
transport accepts everything without failure. -/
abbrev Trans := List (Nat × Bool)

/-- Modelled from the spec: a single observed transport write of `n` bytes. -/
def transCall : Trans → Nat → Nat × Bool × Trans
  | [], n => (n, false, [])
  | (a, f) :: rest, n => (min a n, f, rest)

/-- The backpressure-aware write loop of `internalEnd` (lines 152-160): issue
transport calls of at most `INT_MAX` bytes until everything is written or a
call fails; returns total bytes accepted, the failure flag, and the remaining
script. -/
def writeLoop : Trans → Nat → Nat × Bool × Trans
  | t, 0 => (0, false, t)
  | [], n => (n, false, [])
  | (a, f) :: rest, n =>
      let wrote := min a (min n INT_MAX)
      if f then (wrote, true, rest)
      else
        let res := writeLoop rest (n - wrote)
        (wrote + res.1, res.2.1, res.2.2)

/-- Result of one public operation: new response data, the wire items emitted,
whether `Super::timeout(HTTP_TIMEOUT_S)` was armed, the boolean returned to the
caller, the body bytes accepted by the transport, and the remaining script. -/
structure OpResult where
  st : HttpResponseData
  wire : List WireItem
  timeoutArmed : Bool
  ok : Bool
  accepted : Nat
  trans : Trans
deriving DecidableEq

/-- `writeStatus` (lines 344-359): honored only when `HTTP_STATUS_CALLED` is
still clear; otherwise a silent no-op. -/
def writeStatus (st : HttpResponseData) (status : String) :
    HttpResponseData × List WireItem :=
  if st.statusCalled then (st, [])
  else ({ st with statusCalled := true }, [WireItem.statusLine status])

/-- `writeHeader(std::string_view, std::string_view)` (lines 362-370): writes
the default status first, then the header line. -/
def writeHeader (st : HttpResponseData) (key value : String) :
    HttpResponseData × List WireItem :=
  let p := writeStatus st "200 OK"
  (p.1, p.2 ++ [WireItem.headerLine key value])

/-- `writeHeader(std::string_view, uint64_t)` (lines 373-379): writes the
header line directly, with no `writeStatus` call. -/
def writeHeaderInt (st : HttpResponseData) (key : String) (value : Nat) :
    HttpResponseData × List WireItem :=
  (st, [WireItem.headerLine key (toString value)])

/-- `writeMark` (lines 84-92): the vendor header, suppressed by the loop-wide
`noMark` configuration. -/
def writeMark (noMark : Bool) (st : HttpResponseData) :
    HttpResponseData × List WireItem :=
  if noMark then (st, []) else writeHeader st "uWebSockets" "18"

/-- `markDone` (lines 74-81): clears both callbacks and `HTTP_RESPONSE_PENDING`. -/
def markDone (st : HttpResponseData) : HttpResponseData :=
  { st with onAborted := false, onWritable := false, responsePending := false }

/-- `internalEnd` (lines 96-179).  Chunked path: emit the (nonempty) data as a
chunk, always emit the terminating zero chunk, mark done, arm the timeout, and
report success, ignoring `optional`.  Fixed-length path: emit headers once,
run the write loop, account the accepted bytes into `offset`, arm the timeout
on failure or on reaching the total, and mark done on reaching the total.
Chunk sizes pass through `(unsigned int)` as in the source, hence `% 2 ^ 32`;
a non-optional transport write buffers unaccepted bytes (they stay on the
wire), an optional one drops them. -/
def internalEnd (noMark : Bool) (st : HttpResponseData) (data : String)
    (totalSize : Nat) (optional : Bool) (allowContentLength : Bool)
    (trans : Trans) : OpResult :=
  let st1 := (writeStatus st "200 OK").1
  let w1 := (writeStatus st "200 OK").2
  let total := if totalSize = 0 then data.length else totalSize
  if st1.writeCalled then
    let chunkItems : List WireItem :=
      if data.length ≠ 0 then
        [WireItem.chunkHeader (data.length % 2 ^ 32),
         WireItem.raw (String.mk (data.data.take (data.length % 2 ^ 32)))]
      else []
    { st := markDone st1, wire := w1 ++ chunkItems ++ [WireItem.chunkTerm],
      timeoutArmed := true, ok := true, accepted := 0, trans := trans }
  else
    let st2 := if st1.endCalled then st1
      else { (writeMark noMark st1).1 with endCalled := true }
    let w2 : List WireItem :=
      if st1.endCalled then []
      else
        (writeMark noMark st1).2 ++
          (if allowContentLength then
            [WireItem.raw ("Content-Length: " ++ toString total ++ "\r\n\r\n")]
          else [WireItem.raw "\r\n"])
    let written := (writeLoop trans data.length).1
    let failed := (writeLoop trans data.length).2.1
    let trans2 := (writeLoop trans data.length).2.2
    let st3 := { st2 with offset := st2.offset + written }
    let success : Bool := written == data.length && !failed
    let armed : Bool := !success || st3.offset == total
    let st4 := if st3.offset == total then markDone st3 else st3
    let bodyWire : List WireItem :=
      if optional then [WireItem.raw (String.mk (data.data.take written))]
      else [WireItem.raw data]
    { st := st4, wire := w1 ++ w2 ++ bodyWire, timeoutArmed := armed,
      ok := success, accepted := written, trans := trans2 }

/-- Public `write` (lines 393-423): chunked-mode streaming.  Zero-length data
is ignored (after the implicit status write) and reported as success; the first
call emits the mark and `Transfer-Encoding: chunked` and sets
`HTTP_WRITE_CALLED`; the chunk size header goes through `(unsigned int)`. -/
def write (noMark : Bool) (st : HttpResponseData) (data : String)
    (trans : Trans) : OpResult :=
  let st1 := (writeStatus st "200 OK").1
  let w1 := (writeStatus st "200 OK").2
  if data.length = 0 then
    { st := st1, wire := w1, timeoutArmed := false, ok := true, accepted := 0,
      trans := trans }
  else
    let stH := (writeHeader (writeMark noMark st1).1 "Transfer-Encoding" "chunked").1
    let stA := if st1.writeCalled then st1 else { stH with writeCalled := true }
    let w2 : List WireItem :=
      if st1.writeCalled then []
      else (writeMark noMark st1).2 ++
        (writeHeader (writeMark noMark st1).1 "Transfer-Encoding" "chunked").2
    let wrote := (transCall trans (data.length % 2 ^ 32)).1
    let failed := (transCall trans (data.length % 2 ^ 32)).2.1
    let trans2 := (transCall trans (data.length % 2 ^ 32)).2.2
    { st := stA,
      wire := w1 ++ w2 ++ [WireItem.chunkHeader (data.length % 2 ^ 32),
        WireItem.raw (String.mk (data.data.take (data.length % 2 ^ 32)))],
      timeoutArmed := failed, ok := !failed, accepted := wrote, trans := trans2 }

/-- `hasResponded` (lines 433-437). -/
def hasResponded (st : HttpResponseData) : Bool := !st.responsePending

/-- `end` (lines 382-384): `internalEnd(data, data.length(), false)`. -/
def endResponse (noMark : Bool) (st : HttpResponseData) (data : String)
    (trans : Trans) : OpResult :=
  internalEnd noMark st data data.length false true trans

/-- `tryEnd` (lines 388-390): `{internalEnd(data, totalSize, true), hasResponded()}`. -/
def tryEnd (noMark : Bool) (st : HttpResponseData) (data : String)
    (totalSize : Nat) (trans : Trans) : OpResult × Bool :=
  let r := internalEnd noMark st data totalSize true true trans
  (r, hasResponded r.st)

/-- `getWriteOffset` (lines 426-430). -/
def getWriteOffset (st : HttpResponseData) : Nat := st.offset

/-! ### Upgrade compression negotiation (lines 217-279)

The extension-negotiator option bits and the compression policy enum live in
headers that are not part of the sources under study, so they are modelled from
the spec: distinct option bits for permessage-deflate and the two
context-takeover prohibitions, and a policy enum with a disabled value, a
shared-compressor value, and eight dedicated tiers carrying a common
dedicated bit.  The negotiator itself is a black box
`(wanted options, offer string) -> (negotiated options, counter-offer)`. -/

/-- Modelled from the spec: the negotiator option bit for permessage-deflate. -/
def PERMESSAGE_DEFLATE : Nat := 1

/-- Modelled from the spec: the option bit forbidding server context-takeover. -/
def SERVER_NO_CONTEXT_TAKEOVER : Nat := 2

/-- Modelled from the spec: the option bit forbidding client context-takeover. -/
def CLIENT_NO_CONTEXT_TAKEOVER : Nat := 4

/-- Modelled from the spec: compression administratively disabled. -/
def DISABLED : Nat := 0

/-- Modelled from the spec: the shared-compressor policy bit. -/
def SHARED_COMPRESSOR : Nat := 1

/-- Modelled from the spec: the bit common to all dedicated-compressor tiers. -/
def DEDICATED_COMPRESSOR : Nat := 2

/-- Modelled from the spec: dedicated compressor, 3KB window tier. -/
def DEDICATED_COMPRESSOR_3KB : Nat := 2 + 16 * 1

/-- Modelled from the spec: dedicated compressor, 4KB window tier. -/
def DEDICATED_COMPRESSOR_4KB : Nat := 2 + 16 * 2

/-- Modelled from the spec: dedicated compressor, 8KB window tier. -/
def DEDICATED_COMPRESSOR_8KB : Nat := 2 + 16 * 3

/-- Modelled from the spec: dedicated compressor, 16KB window tier. -/
def DEDICATED_COMPRESSOR_16KB : Nat := 2 + 16 * 4

/-- Modelled from the spec: dedicated compressor, 32KB window tier. -/
def DEDICATED_COMPRESSOR_32KB : Nat := 2 + 16 * 5

/-- Modelled from the spec: dedicated compressor, 64KB window tier. -/
def DEDICATED_COMPRESSOR_64KB : Nat := 2 + 16 * 6

/-- Modelled from the spec: dedicated compressor, 128KB window tier. -/
def DEDICATED_COMPRESSOR_128KB : Nat := 2 + 16 * 7

/-- Modelled from the spec: dedicated compressor, 256KB window tier (default,
largest). -/
def DEDICATED_COMPRESSOR_256KB : Nat := 2 + 16 * 8

/-- Modelled from the spec: what the black-box negotiator returns. -/
structure NegotiationResult where
  negotiatedOptions : Nat
  offer : String

/-- The wanted options handed to `ExtensionsNegotiator` (lines 224-230):
always permessage-deflate plus the client context-takeover prohibition, plus
the server context-takeover prohibition when the shared compressor is the
configured policy. -/
def wantedOptions (compression : Nat) : Nat :=
  let w := PERMESSAGE_DEFLATE ||| CLIENT_NO_CONTEXT_TAKEOVER
  if compression = SHARED_COMPRESSOR then w ||| SERVER_NO_CONTEXT_TAKEOVER else w

/-- The `switch` of lines 244-261: window-bit width for a dedicated tier,
defaulting to 9 (the 3KB/4KB tiers). -/
def maxServerWindowBits (compression : Nat) : Nat :=
  if compression = DEDICATED_COMPRESSOR_8KB then 10
  else if compression = DEDICATED_COMPRESSOR_16KB then 11
  else if compression = DEDICATED_COMPRESSOR_32KB then 12
  else if compression = DEDICATED_COMPRESSOR_64KB then 13
  else if compression = DEDICATED_COMPRESSOR_128KB then 14
  else 9

/-- Lines 240-264: append `server_max_window_bits` to the counter-offer when a
dedicated compressor below the maximum tier is configured. -/
def augmentedOffer (compression : Nat) (offer : String) : String :=
  if compression &&& DEDICATED_COMPRESSOR ≠ 0 ∧
      compression ≠ DEDICATED_COMPRESSOR_256KB then
    offer ++ "; server_max_window_bits=" ++ toString (maxServerWindowBits compression)
  else offer

/-- Outcome of the compression negotiation part of `upgrade`: the
per-connection permessage-deflate decision, the compressor options handed to
`WebSocket::init`, and the `Sec-WebSocket-Extensions` header value, if one is
written. -/
structure UpgradeCompression where
  perMessageDeflate : Bool
  compressOptions : Nat
  extHeader : Option String

/-- Lines 217-279 of `upgrade`: start from the shared-compressor bit of the
configured policy; when compression is enabled and the client offered
extensions, negotiate, emit the (possibly augmented) counter-offer when
non-empty, enable permessage-deflate iff negotiated, and keep the full
configured policy only when the negotiated options allow server
context-takeover. -/
def negotiateCompression (compression : Nat) (secWebSocketExtensions : String)
    (negotiator : Nat → String → NegotiationResult) : UpgradeCompression :=
  let compressOptions := compression &&& SHARED_COMPRESSOR
  if compression ≠ DISABLED ∧ secWebSocketExtensions.length ≠ 0 then
    let res := negotiator (wantedOptions compression) secWebSocketExtensions
    let extHeader : Option String :=
      if res.offer.length ≠ 0 then some (augmentedOffer compression res.offer)
      else none
    let perMessageDeflate : Bool := res.negotiatedOptions &&& PERMESSAGE_DEFLATE ≠ 0
    let compressOptions :=
      if res.negotiatedOptions &&& SERVER_NO_CONTEXT_TAKEOVER = 0 then compression
      else compressOptions
    { perMessageDeflate := perMessageDeflate, compressOptions := compressOptions,
      extHeader := extHeader }
  else
    { perMessageDeflate := false, compressOptions := compressOptions,
      extHeader := none }

/-! ### Sequences of public operations on one response -/

/-- The public status/header/body operations of `HttpResponse`. -/
inductive Op where
  | status (s : String)
  | headerS (k v : String)
  | headerI (k : String) (v : Nat)
  | writeB (data : String)
  | endB (data : String)
  | tryEndB (data : String) (totalSize : Nat)
deriving DecidableEq

/-- A connection carrying one response: its data, the accumulated wire, the
remaining transport script, and the total body bytes accepted so far. -/
structure Conn where
  st : HttpResponseData
  wire : List WireItem
  trans : Trans
  accepted : Nat
deriving DecidableEq

/-- A fresh connection. -/
def initConn (trans : Trans) : Conn :=
  { st := initialState, wire := [], trans := trans, accepted := 0 }

/-- Execute one public operation on a connection. -/
def stepOp (noMark : Bool) (c : Conn) : Op → Conn
  | Op.status s =>
      let p := writeStatus c.st s
      { st := p.1, wire := c.wire ++ p.2, trans := c.trans, accepted := c.accepted }
  | Op.headerS k v =>
      let p := writeHeader c.st k v
      { st := p.1, wire := c.wire ++ p.2, trans := c.trans, accepted := c.accepted }
  | Op.headerI k v =>
      let p := writeHeaderInt c.st k v
      { st := p.1, wire := c.wire ++ p.2, trans := c.trans, accepted := c.accepted }
  | Op.writeB data =>
      let r := write noMark c.st data c.trans
      { st := r.st, wire := c.wire ++ r.wire, trans := r.trans,
        accepted := c.accepted + r.accepted }
  | Op.endB data =>
      let r := endResponse noMark c.st data c.trans
      { st := r.st, wire := c.wire ++ r.wire, trans := r.trans,
        accepted := c.accepted + r.accepted }
  | Op.tryEndB data totalSize =>
      let r := (tryEnd noMark c.st data totalSize c.trans).1
      { st := r.st, wire := c.wire ++ r.wire, trans := r.trans,
        accepted := c.accepted + r.accepted }

/-- Execute a sequence of public operations. -/
def run (noMark : Bool) (c : Conn) (ops : List Op) : Conn :=
  ops.foldl (stepOp noMark) c

/-- Whether a wire item is a status line. -/
def isStatusItem : WireItem → Bool
  | WireItem.statusLine _ => true
  | _ => false

/-- How many status lines a wire holds. -/
def statusCount (items : List WireItem) : Nat := items.countP isStatusItem

/-- Whether an operation is an `end`/`tryEnd` call. -/
def endLike : Op → Bool
  | Op.endB _ => true
  | Op.tryEndB _ _ => true
  | _ => false

/-- Whether an operation is the integer-valued `writeHeader` overload. -/
def intHeaderOp : Op → Bool
  | Op.headerI _ _ => true
  | _ => false

/-! ### Concrete fixtures used by counterexamples and witnesses -/

/-- A response already in chunked mode (status written, `HTTP_WRITE_CALLED`
set), as produced by a successful first `write` call. -/
def stChunked : HttpResponseData :=
  { statusCalled := true, writeCalled := true, endCalled := false,
    responsePending := true, offset := 0, onAborted := true, onWritable := true }

/-- A 4GiB payload: exactly `2 ^ 32` bytes. -/
def bigData : String := String.mk (List.replicate (2 ^ 32) 'a')

/-- A fixed negotiator answering every offer with permessage-deflate and a
plain counter-offer. -/
def negFixture : Nat → String → NegotiationResult :=
  fun _ _ => { negotiatedOptions := PERMESSAGE_DEFLATE, offer := "permessage-deflate" }

/-! ### Basic lemmas about the components -/

theorem set_statusCalled_self (st : HttpResponseData) (h : st.statusCalled = true) :
    ({ st with statusCalled := true } : HttpResponseData) = st := by
  cases st
  simp_all

theorem writeStatus_fst (st : HttpResponseData) (s : String) :
    (writeStatus st s).1 = { st with statusCalled := true } := by
  unfold writeStatus
  by_cases h : st.statusCalled
  · simp [h, set_statusCalled_self st h]
  · simp [h]

theorem writeStatus_snd (st : HttpResponseData) (s : String) :
    (writeStatus st s).2 =
      if st.statusCalled then [] else [WireItem.statusLine s] := by
  unfold writeStatus
  by_cases h : st.statusCalled <;> simp [h]

theorem writeStatus_called (st : HttpResponseData) (s : String)
    (h : st.statusCalled = true) : writeStatus st s = (st, []) := by
  unfold writeStatus
  simp [h]

theorem writeMark_fst_called (noMark : Bool) (st : HttpResponseData)
    (h : st.statusCalled = true) : (writeMark noMark st).1 = st := by
  unfold writeMark writeHeader
  by_cases hm : noMark <;> simp [hm, writeStatus_called st _ h]

theorem writeMark_snd_called (noMark : Bool) (st : HttpResponseData)
    (h : st.statusCalled = true) :
    (writeMark noMark st).2 =
      if noMark then [] else [WireItem.headerLine "uWebSockets" "18"] := by
  unfold writeMark writeHeader
  by_cases hm : noMark <;> simp [hm, writeStatus_called st _ h]

theorem writeLoop_zero (t : Trans) : writeLoop t 0 = (0, false, t) := by
  cases t with
  | nil => rfl
  | cons p rest => cases p; rfl

/-- Full characterization of the fixed-length path of `internalEnd`
(`HTTP_WRITE_CALLED` clear). -/
theorem internalEnd_fixed (noMark : Bool) (st : HttpResponseData) (data : String)
    (totalSize : Nat) (optional allowContentLength : Bool) (trans : Trans)
    (h : st.writeCalled = false) :
    internalEnd noMark st data totalSize optional allowContentLength trans =
      { st :=
          if st.offset + (writeLoop trans data.length).1 ==
              (if totalSize = 0 then data.length else totalSize) then
            markDone
              { st with
                statusCalled := true, endCalled := true,
                offset := st.offset + (writeLoop trans data.length).1 }
          else
            { st with
              statusCalled := true, endCalled := true,
              offset := st.offset + (writeLoop trans data.length).1 },
        wire :=
          (if st.statusCalled then [] else [WireItem.statusLine "200 OK"]) ++
          ((if st.endCalled then []
            else
              (if noMark then [] else [WireItem.headerLine "uWebSockets" "18"]) ++
              (if allowContentLength then
                [WireItem.raw ("Content-Length: " ++
                  toString (if totalSize = 0 then data.length else totalSize) ++
                  "\r\n\r\n")]
              else [WireItem.raw "\r\n"])) ++
          (if optional then
            [WireItem.raw (String.mk (data.data.take (writeLoop trans data.length).1))]
          else [WireItem.raw data])),
        timeoutArmed :=
          !((writeLoop trans data.length).1 == data.length &&
              !(writeLoop trans data.length).2.1) ||
            st.offset + (writeLoop trans data.length).1 ==
              (if totalSize = 0 then data.length else totalSize),
        ok := (writeLoop trans data.length).1 == data.length &&
          !(writeLoop trans data.length).2.1,
        accepted := (writeLoop trans data.length).1,
        trans := (writeLoop trans data.length).2.2 } := by
  obtain ⟨sc, wc, ec, rp, off, ab, wr⟩ := st
  simp only at h
  subst h
  unfold internalEnd
  by_cases hsc : sc <;> by_cases hec : ec <;> by_cases hnm : noMark <;>
    simp [writeStatus, writeMark, writeHeader, hsc, hec, hnm]

/-- Full characterization of the chunked path of `internalEnd`
(`HTTP_WRITE_CALLED` set). -/
theorem internalEnd_chunked (noMark : Bool) (st : HttpResponseData) (data : String)
    (totalSize : Nat) (optional allowContentLength : Bool) (trans : Trans)
    (h : st.writeCalled = true) :
    internalEnd noMark st data totalSize optional allowContentLength trans =
      { st := markDone { st with statusCalled := true },
        wire :=
          (if st.statusCalled then [] else [WireItem.statusLine "200 OK"]) ++
          ((if data.length ≠ 0 then
            [WireItem.chunkHeader (data.length % 2 ^ 32),
             WireItem.raw (String.mk (data.data.take (data.length % 2 ^ 32)))]
          else []) ++ [WireItem.chunkTerm]),
        timeoutArmed := true, ok := true, accepted := 0, trans := trans } := by
  obtain ⟨sc, wc, ec, rp, off, ab, wr⟩ := st
  simp only at h
  subst h
  unfold internalEnd
  by_cases hsc : sc <;> simp [writeStatus, hsc]

theorem writeHeader_fst (st : HttpResponseData) (k v : String) :
    (writeHeader st k v).1 = { st with statusCalled := true } := by
  simp [writeHeader, writeStatus_fst]

theorem writeHeader_snd (st : HttpResponseData) (k v : String) :
    (writeHeader st k v).2 =
      (if st.statusCalled then [] else [WireItem.statusLine "200 OK"]) ++
        [WireItem.headerLine k v] := by
  simp [writeHeader, writeStatus_snd]

theorem statusCount_append (a b : List WireItem) :
    statusCount (a ++ b) = statusCount a + statusCount b := by
  simp [statusCount, List.countP_append]

theorem write_statusCalled (noMark : Bool) (st : HttpResponseData) (data : String)
    (trans : Trans) : (write noMark st data trans).st.statusCalled = true := by
  obtain ⟨sc, wc, ec, rp, off, ab, wr⟩ := st
  unfold write
  by_cases h0 : data.length = 0 <;> by_cases hsc : sc <;> by_cases hwc : wc <;>
    by_cases hnm : noMark <;>
    simp [writeStatus, writeMark, writeHeader, h0, hsc, hwc, hnm]

theorem write_statusCount (noMark : Bool) (st : HttpResponseData) (data : String)
    (trans : Trans) :
    statusCount (write noMark st data trans).wire =
      if st.statusCalled then 0 else 1 := by
  obtain ⟨sc, wc, ec, rp, off, ab, wr⟩ := st
  unfold write
  by_cases h0 : data.length = 0 <;> by_cases hsc : sc <;> by_cases hwc : wc <;>
    by_cases hnm : noMark <;>
    simp [writeStatus, writeMark, writeHeader, h0, hsc, hwc, hnm, statusCount,
      isStatusItem]

theorem write_wire_head (noMark : Bool) (st : HttpResponseData) (data : String)
    (trans : Trans) (h : st.statusCalled = false) :
    ∃ rest, (write noMark st data trans).wire =
      WireItem.statusLine "200 OK" :: rest := by
  obtain ⟨sc, wc, ec, rp, off, ab, wr⟩ := st
  simp only at h
  subst h
  unfold write
  by_cases h0 : data.length = 0 <;> by_cases hwc : wc <;> by_cases hnm : noMark <;>
    simp [writeStatus, writeMark, writeHeader, h0, hwc, hnm]

/-- Full characterization of a non-empty `write` on a response already in
chunked mode with the status written. -/
theorem write_chunked (noMark : Bool) (st : HttpResponseData) (data : String)
    (trans : Trans) (hs : st.statusCalled = true) (hw : st.writeCalled = true)
    (hd : ¬data.length = 0) :
    write noMark st data trans =
      { st := st,
        wire := [WireItem.chunkHeader (data.length % 2 ^ 32),
          WireItem.raw (String.mk (data.data.take (data.length % 2 ^ 32)))],
        timeoutArmed := (transCall trans (data.length % 2 ^ 32)).2.1,
        ok := !(transCall trans (data.length % 2 ^ 32)).2.1,
        accepted := (transCall trans (data.length % 2 ^ 32)).1,
        trans := (transCall trans (data.length % 2 ^ 32)).2.2 } := by
  obtain ⟨sc, wc, ec, rp, off, ab, wr⟩ := st
  simp only at hs hw
  subst hs
  subst hw
  unfold write
  simp [writeStatus, hd]

theorem internalEnd_statusCalled (noMark : Bool) (st : HttpResponseData)
    (data : String) (totalSize : Nat) (optional acl : Bool) (trans : Trans) :
    (internalEnd noMark st data totalSize optional acl trans).st.statusCalled = true := by
  cases hw : st.writeCalled with
  | false =>
      rw [internalEnd_fixed noMark st data totalSize optional acl trans hw]
      split_ifs <;> simp [markDone]
  | true =>
      rw [internalEnd_chunked noMark st data totalSize optional acl trans hw]
      simp [markDone]

theorem internalEnd_statusCount (noMark : Bool) (st : HttpResponseData)
    (data : String) (totalSize : Nat) (optional acl : Bool) (trans : Trans) :
    statusCount (internalEnd noMark st data totalSize optional acl trans).wire =
      if st.statusCalled then 0 else 1 := by
  cases hw : st.writeCalled with
  | false =>
      rw [internalEnd_fixed noMark st data totalSize optional acl trans hw]
      split_ifs <;>
        simp [statusCount, List.countP_append, List.countP_cons, isStatusItem]
  | true =>
      rw [internalEnd_chunked noMark st data totalSize optional acl trans hw]
      split_ifs <;>
        simp [statusCount, List.countP_append, List.countP_cons, isStatusItem]

theorem internalEnd_wire_head (noMark : Bool) (st : HttpResponseData)
    (data : String) (totalSize : Nat) (optional acl : Bool) (trans : Trans)
    (h : st.statusCalled = false) :
    ∃ rest, (internalEnd noMark st data totalSize optional acl trans).wire =
      WireItem.statusLine "200 OK" :: rest := by
  cases hw : st.writeCalled with
  | false =>
      rw [internalEnd_fixed noMark st data totalSize optional acl trans hw]
      simp [h]
  | true =>
      rw [internalEnd_chunked noMark st data totalSize optional acl trans hw]
      simp [h]

theorem internalEnd_offset_accepted (noMark : Bool) (st : HttpResponseData)
    (data : String) (totalSize : Nat) (optional acl : Bool) (trans : Trans)
    (h : st.writeCalled = false) :
    (internalEnd noMark st data totalSize optional acl trans).st.offset =
        st.offset + (internalEnd noMark st data totalSize optional acl trans).accepted ∧
      (internalEnd noMark st data totalSize optional acl trans).st.writeCalled = false := by
  rw [internalEnd_fixed noMark st data totalSize optional acl trans h]
  split_ifs <;> simp [markDone, h]

/-- Status-line token conservation: one operation emits a status line exactly
when it flips `HTTP_STATUS_CALLED` from clear to set. -/
theorem stepOp_statusCount (noMark : Bool) (c : Conn) (op : Op) :
    statusCount (stepOp noMark c op).wire + (if c.st.statusCalled then 1 else 0) =
      statusCount c.wire + (if (stepOp noMark c op).st.statusCalled then 1 else 0) := by
  cases op with
  | status s =>
      simp only [stepOp, statusCount_append, writeStatus_fst, writeStatus_snd]
      by_cases h : c.st.statusCalled <;>
        simp [h, statusCount, isStatusItem]
  | headerS k v =>
      simp only [stepOp, statusCount_append, writeHeader_fst, writeHeader_snd]
      by_cases h : c.st.statusCalled <;>
        simp [h, statusCount, List.countP_append, isStatusItem]
  | headerI k v =>
      simp [stepOp, writeHeaderInt, statusCount_append, statusCount, isStatusItem]
  | writeB data =>
      simp only [stepOp, statusCount_append, write_statusCount, write_statusCalled]
      by_cases h : c.st.statusCalled <;> simp [h]
  | endB data =>
      simp only [stepOp, endResponse, statusCount_append, internalEnd_statusCount,
        internalEnd_statusCalled]
      by_cases h : c.st.statusCalled <;> simp [h]
  | tryEndB data totalSize =>
      simp only [stepOp, tryEnd, statusCount_append, internalEnd_statusCount,
        internalEnd_statusCalled]
      by_cases h : c.st.statusCalled <;> simp [h]

/-- Status-line token conservation over a whole run. -/
theorem run_statusCount (noMark : Bool) (ops : List Op) (c : Conn) :
    statusCount (run noMark c ops).wire + (if c.st.statusCalled then 1 else 0) =
      statusCount c.wire + (if (run noMark c ops).st.statusCalled then 1 else 0) := by
  induction ops generalizing c with
  | nil => simp [run]
  | cons op ops ih =>
      have h1 := stepOp_statusCount noMark c op
      have h2 := ih (stepOp noMark c op)
      have hrun : run noMark c (op :: ops) = run noMark (stepOp noMark c op) ops := by
        simp [run]
      rw [hrun]
      omega

/-- Every operation leaves `HTTP_STATUS_CALLED` set or unchanged; the integer
header overload is the only operation that leaves it unchanged while emitting. -/
theorem stepOp_statusCalled (noMark : Bool) (c : Conn) (op : Op)
    (hop : intHeaderOp op = false) :
    (stepOp noMark c op).st.statusCalled = true := by
  cases op with
  | status s => simp [stepOp, writeStatus_fst]
  | headerS k v => simp [stepOp, writeHeader_fst]
  | headerI k v => simp [intHeaderOp] at hop
  | writeB data => simp [stepOp, write_statusCalled]
  | endB data => simp [stepOp, endResponse, internalEnd_statusCalled]
  | tryEndB data totalSize => simp [stepOp, tryEnd, internalEnd_statusCalled]

/-- Any operation only appends to the wire. -/
theorem stepOp_wire_append (noMark : Bool) (c : Conn) (op : Op) :
    ∃ items, (stepOp noMark c op).wire = c.wire ++ items := by
  cases op <;> exact ⟨_, rfl⟩

/-- If `HTTP_STATUS_CALLED` is still clear, an operation other than the integer
header overload puts a status line at the head of what it emits. -/
theorem stepOp_wire_head (noMark : Bool) (c : Conn) (op : Op)
    (hop : intHeaderOp op = false) (h : c.st.statusCalled = false) :
    ∃ s rest, (stepOp noMark c op).wire = c.wire ++ (WireItem.statusLine s :: rest) := by
  cases op with
  | status s =>
      refine ⟨s, [], ?_⟩
      simp [stepOp, writeStatus_snd, h]
  | headerS k v =>
      refine ⟨"200 OK", [WireItem.headerLine k v], ?_⟩
      simp [stepOp, writeHeader_snd, h]
  | headerI k v => simp [intHeaderOp] at hop
  | writeB data =>
      obtain ⟨rest, hr⟩ := write_wire_head noMark c.st data c.trans h
      exact ⟨"200 OK", rest, by simp [stepOp, hr]⟩
  | endB data =>
      obtain ⟨rest, hr⟩ :=
        internalEnd_wire_head noMark c.st data data.length false true c.trans h
      exact ⟨"200 OK", rest, by simp [stepOp, endResponse, hr]⟩
  | tryEndB data totalSize =>
      obtain ⟨rest, hr⟩ :=
        internalEnd_wire_head noMark c.st data totalSize true true c.trans h
      exact ⟨"200 OK", rest, by simp [stepOp, tryEnd, hr]⟩

/-- In any run that avoids the integer-valued `writeHeader` overload, the wire
is empty until the status line is written, and afterwards starts with it. -/
theorem run_wire_head (noMark : Bool) (ops : List Op) (c : Conn)
    (hops : ∀ op ∈ ops, intHeaderOp op = false)
    (h1 : c.st.statusCalled = false → c.wire = [])
    (h2 : c.st.statusCalled = true →
      ∃ s rest, c.wire = WireItem.statusLine s :: rest) :
    ((run noMark c ops).st.statusCalled = false → (run noMark c ops).wire = []) ∧
    ((run noMark c ops).st.statusCalled = true →
      ∃ s rest, (run noMark c ops).wire = WireItem.statusLine s :: rest) := by
  induction ops generalizing c with
  | nil => exact ⟨h1, h2⟩
  | cons op ops ih =>
      have hop : intHeaderOp op = false := hops op (by simp)
      have hops' : ∀ o ∈ ops, intHeaderOp o = false := by
        intro o ho
        exact hops o (by simp [ho])
      have hrun : run noMark c (op :: ops) = run noMark (stepOp noMark c op) ops := by
        simp [run]
      rw [hrun]
      apply ih (stepOp noMark c op) hops'
      · intro hf
        rw [stepOp_statusCalled noMark c op hop] at hf
        exact absurd hf (by simp)
      · intro _
        by_cases hsc : c.st.statusCalled = true
        · obtain ⟨s, rest, hw⟩ := h2 hsc
          obtain ⟨items, hi⟩ := stepOp_wire_append noMark c op
          exact ⟨s, rest ++ items, by rw [hi, hw]; simp⟩
        · have hf : c.st.statusCalled = false := by
            cases hv : c.st.statusCalled
            · rfl
            · exact absurd hv hsc
          obtain ⟨s, rest, hw⟩ := stepOp_wire_head noMark c op hop hf
          rw [h1 hf] at hw
          exact ⟨s, rest, by rw [hw]; simp⟩

/-- One `end`/`tryEnd` step on a response still in fixed-length mode: the
offset advances by exactly the accepted bytes and the mode is unchanged. -/
theorem stepOp_endLike (noMark : Bool) (c : Conn) (op : Op)
    (hop : endLike op = true) (h : c.st.writeCalled = false) :
    (stepOp noMark c op).st.offset + c.accepted =
        c.st.offset + (stepOp noMark c op).accepted ∧
      (stepOp noMark c op).st.writeCalled = false ∧
      c.st.offset ≤ (stepOp noMark c op).st.offset := by
  cases op with
  | status s => simp [endLike] at hop
  | headerS k v => simp [endLike] at hop
  | headerI k v => simp [endLike] at hop
  | writeB data => simp [endLike] at hop
  | endB data =>
      obtain ⟨ho, hw⟩ :=
        internalEnd_offset_accepted noMark c.st data data.length false true c.trans h
      refine ⟨?_, ?_, ?_⟩
      · simp only [stepOp, endResponse] at *
        omega
      · simp only [stepOp, endResponse] at *
        exact hw
      · simp only [stepOp, endResponse] at *
        omega
  | tryEndB data totalSize =>
      obtain ⟨ho, hw⟩ :=
        internalEnd_offset_accepted noMark c.st data totalSize true true c.trans h
      refine ⟨?_, ?_, ?_⟩
      · simp only [stepOp, tryEnd] at *
        omega
      · simp only [stepOp, tryEnd] at *
        exact hw
      · simp only [stepOp, tryEnd] at *
        omega

theorem internalEnd_endCalled (noMark : Bool) (st : HttpResponseData)
    (data : String) (totalSize : Nat) (optional acl : Bool) (trans : Trans)
    (h : st.writeCalled = false) :
    (internalEnd noMark st data totalSize optional acl trans).st.endCalled = true := by
  rw [internalEnd_fixed noMark st data totalSize optional acl trans h]
  split_ifs <;> simp [markDone]

theorem internalEnd_offset (noMark : Bool) (st : HttpResponseData)
    (data : String) (totalSize : Nat) (optional acl : Bool) (trans : Trans)
    (h : st.writeCalled = false) :
    (internalEnd noMark st data totalSize optional acl trans).st.offset =
      st.offset + (writeLoop trans data.length).1 := by
  rw [internalEnd_fixed noMark st data totalSize optional acl trans h]
  split_ifs <;> simp [markDone]

theorem internalEnd_ok (noMark : Bool) (st : HttpResponseData)
    (data : String) (totalSize : Nat) (optional acl : Bool) (trans : Trans)
    (h : st.writeCalled = false) :
    (internalEnd noMark st data totalSize optional acl trans).ok =
      ((writeLoop trans data.length).1 == data.length &&
        !(writeLoop trans data.length).2.1) := by
  rw [internalEnd_fixed noMark st data totalSize optional acl trans h]

theorem internalEnd_timeoutArmed (noMark : Bool) (st : HttpResponseData)
    (data : String) (totalSize : Nat) (optional acl : Bool) (trans : Trans)
    (h : st.writeCalled = false) :
    (internalEnd noMark st data totalSize optional acl trans).timeoutArmed =
      (!((writeLoop trans data.length).1 == data.length &&
          !(writeLoop trans data.length).2.1) ||
        st.offset + (writeLoop trans data.length).1 ==
          (if totalSize = 0 then data.length else totalSize)) := by
  rw [internalEnd_fixed noMark st data totalSize optional acl trans h]

theorem augmentedOffer_dedicated (compression : Nat) (offer : String)
    (hc : compression &&& DEDICATED_COMPRESSOR ≠ 0 ∧
      compression ≠ DEDICATED_COMPRESSOR_256KB) :
    augmentedOffer compression offer =
      offer ++ "; server_max_window_bits=" ++
        toString (maxServerWindowBits compression) := by
  unfold augmentedOffer
  rw [if_pos hc]

theorem augmentedOffer_other (compression : Nat) (offer : String)
    (hc : ¬(compression &&& DEDICATED_COMPRESSOR ≠ 0 ∧
      compression ≠ DEDICATED_COMPRESSOR_256KB)) :
    augmentedOffer compression offer = offer := by
  unfold augmentedOffer
  rw [if_neg hc]

/-! ### The claims -/

/-- C1: for every call into the fixed-length end path (`internalEnd` with
`HTTP_WRITE_CALLED` clear): if the write reports failure a timeout is armed;
if it reports full success with the offset at the declared total a timeout is
armed; and if it reports success with the offset still below the declared
total, no timeout is armed. -/
theorem claim1_fixed_end_timeout (noMark : Bool) (st : HttpResponseData)
    (data : String) (totalSize : Nat) (optional acl : Bool) (trans : Trans)
    (h : st.writeCalled = false) :
    ((internalEnd noMark st data totalSize optional acl trans).ok = false →
      (internalEnd noMark st data totalSize optional acl trans).timeoutArmed = true) ∧
    ((internalEnd noMark st data totalSize optional acl trans).ok = true →
      (internalEnd noMark st data totalSize optional acl trans).st.offset =
        (if totalSize = 0 then data.length else totalSize) →
      (internalEnd noMark st data totalSize optional acl trans).timeoutArmed = true) ∧
    ((internalEnd noMark st data totalSize optional acl trans).ok = true →
      (internalEnd noMark st data totalSize optional acl trans).st.offset <
        (if totalSize = 0 then data.length else totalSize) →
      (internalEnd noMark st data totalSize optional acl trans).timeoutArmed = false) := by
  have hoff := internalEnd_offset noMark st data totalSize optional acl trans h
  have hok := internalEnd_ok noMark st data totalSize optional acl trans h
  have harm := internalEnd_timeoutArmed noMark st data totalSize optional acl trans h
  refine ⟨?_, ?_, ?_⟩
  · intro hk
    rw [hok] at hk
    rw [harm, hk]
    simp
  · intro _ heq
    rw [hoff] at heq
    rw [harm, heq]
    simp
  · intro hk hlt
    rw [hok] at hk
    rw [hoff] at hlt
    rw [harm, hk]
    have hne : (st.offset + (writeLoop trans data.length).1 ==
        (if totalSize = 0 then data.length else totalSize)) = false := by
      simp only [beq_eq_false_iff_ne]
      omega
    simp [hne]

/-- C1 witness: a successful partial `tryEnd` (two of five declared bytes,
transport accepting everything) arms no timeout. -/
theorem claim1_witness :
    (internalEnd true initialState "ab" 5 true true []).timeoutArmed = false :=
  (claim1_fixed_end_timeout true initialState "ab" 5 true true [] rfl).2.2
    (by decide) (by decide)

/-- C2: over every sequence of public operations, at most one status line is
ever emitted; moreover an explicit `writeStatus` on a response whose status
was already written is a silent no-op emitting nothing. -/
theorem claim2_single_status (noMark : Bool) (trans : Trans) (ops : List Op) :
    statusCount (run noMark (initConn trans) ops).wire ≤ 1 ∧
    (∀ st s, st.statusCalled = true → writeStatus st s = (st, [])) := by
  constructor
  · have h := run_statusCount noMark ops (initConn trans)
    have h0 : (initConn trans).st.statusCalled = false := rfl
    have h1 : statusCount (initConn trans).wire = 0 := rfl
    rw [h0, h1] at h
    cases hv : (run noMark (initConn trans) ops).st.statusCalled <;>
      rw [hv] at h <;> simp at h <;> omega
  · exact fun st s hs => writeStatus_called st s hs

/-- C2 witness: two explicit status writes still yield at most one status
line, and a status write on an already-written response is a no-op. -/
theorem claim2_witness :
    statusCount (run true (initConn []) [Op.status "X", Op.status "Y"]).wire ≤ 1 ∧
    writeStatus stChunked "418 Teapot" = (stChunked, []) :=
  ⟨(claim2_single_status true [] [Op.status "X", Op.status "Y"]).1,
   (claim2_single_status true [] []).2 stChunked "418 Teapot" rfl⟩

/-- C3 counterexample: the integer-valued `writeHeader` overload (lines
373-379) emits header bytes while `HTTP_STATUS_CALLED` is still clear, so the
claim as stated is false. -/
theorem claim3_counterexample :
    (stepOp true (initConn []) (Op.headerI "Content-Length" 42)).st.statusCalled
        = false ∧
      (stepOp true (initConn []) (Op.headerI "Content-Length" 42)).wire =
        [WireItem.headerLine "Content-Length" "42"] ∧
      render (stepOp true (initConn []) (Op.headerI "Content-Length" 42)).wire
        ≠ [] := by
  refine ⟨?_, ?_, ?_⟩ <;> decide

/-- C3 (amended): in every run of public operations avoiding the
integer-valued `writeHeader` overload, the status line comes before any header
or body byte: the wire is either empty or begins with a status line. -/
theorem claim3_status_first (noMark : Bool) (trans : Trans) (ops : List Op)
    (hops : ∀ op ∈ ops, intHeaderOp op = false) :
    (run noMark (initConn trans) ops).wire = [] ∨
    ∃ s rest, (run noMark (initConn trans) ops).wire =
      WireItem.statusLine s :: rest := by
  have h := run_wire_head noMark ops (initConn trans) hops (fun _ => rfl)
    (fun hc => absurd hc (by simp [initConn, initialState]))
  by_cases hf : (run noMark (initConn trans) ops).st.statusCalled = true
  · exact Or.inr (h.2 hf)
  · refine Or.inl (h.1 ?_)
    cases hv : (run noMark (initConn trans) ops).st.statusCalled
    · rfl
    · exact absurd hv hf

/-- C3 witness: a header-then-end run starts with the status line. -/
theorem claim3_witness :
    (run true (initConn []) [Op.headerS "Server" "x", Op.endB "hi"]).wire = [] ∨
    ∃ s rest, (run true (initConn []) [Op.headerS "Server" "x", Op.endB "hi"]).wire =
      WireItem.statusLine s :: rest :=
  claim3_status_first true [] [Op.headerS "Server" "x", Op.endB "hi"] (by decide)

/-- C6: whenever `internalEnd` completes the response — always in chunked
mode (terminating chunk emitted), or on the offset reaching the declared total
in fixed mode — the resulting state has `onAborted` and `onWritable` cleared
and `HTTP_RESPONSE_PENDING` cleared, in that same operation. -/
theorem claim6_done_clears (noMark : Bool) (st : HttpResponseData)
    (data : String) (totalSize : Nat) (optional acl : Bool) (trans : Trans)
    (h : st.writeCalled = true ∨
      (internalEnd noMark st data totalSize optional acl trans).st.offset =
        (if totalSize = 0 then data.length else totalSize)) :
    (internalEnd noMark st data totalSize optional acl trans).st.onAborted = false ∧
    (internalEnd noMark st data totalSize optional acl trans).st.onWritable = false ∧
    (internalEnd noMark st data totalSize optional acl trans).st.responsePending
      = false := by
  cases hw : st.writeCalled with
  | true =>
      rw [internalEnd_chunked noMark st data totalSize optional acl trans hw]
      simp [markDone]
  | false =>
      rcases h with h | h
      · rw [hw] at h
        exact absurd h (by simp)
      · rw [internalEnd_offset noMark st data totalSize optional acl trans hw] at h
        rw [internalEnd_fixed noMark st data totalSize optional acl trans hw]
        simp [h, markDone]

/-- C6 witness: finalizing a chunked response clears both callbacks and the
pending flag. -/
theorem claim6_witness :
    (internalEnd true stChunked "x" 0 false true []).st.onAborted = false ∧
    (internalEnd true stChunked "x" 0 false true []).st.onWritable = false ∧
    (internalEnd true stChunked "x" 0 false true []).st.responsePending = false :=
  claim6_done_clears true stChunked "x" 0 false true [] (Or.inl rfl)

/-- C10: on a response already in chunked mode, `internalEnd` ignores the
optional (best-effort) flag entirely and always returns true, so `tryEnd`
always reports success there. -/
theorem claim10_chunked_always_ok (noMark : Bool) (st : HttpResponseData)
    (data : String) (totalSize : Nat) (o o' acl : Bool) (trans : Trans)
    (h : st.writeCalled = true) :
    internalEnd noMark st data totalSize o acl trans =
        internalEnd noMark st data totalSize o' acl trans ∧
      (internalEnd noMark st data totalSize o acl trans).ok = true ∧
      (tryEnd noMark st data totalSize trans).1.ok = true := by
  refine ⟨?_, ?_, ?_⟩
  · rw [internalEnd_chunked noMark st data totalSize o acl trans h,
      internalEnd_chunked noMark st data totalSize o' acl trans h]
  · rw [internalEnd_chunked noMark st data totalSize o acl trans h]
  · simp only [tryEnd]
    rw [internalEnd_chunked noMark st data totalSize true true trans h]

/-- C10 witness: `tryEnd` (optional write) on a chunked response reports
success even with an empty transport script. -/
theorem claim10_witness :
    (internalEnd true stChunked "x" 0 true true []).ok = true :=
  (claim10_chunked_always_ok true stChunked "x" 0 true false true [] rfl).2.1

/-- C4: at the failing input — a chunked-mode `write` of exactly `2 ^ 32`
bytes — the `(unsigned int)` cast of `data.length()` makes `write` emit a
chunk header declaring length zero (the end-of-response marker, contradicting
the guard comment "Do not allow sending 0 chunks") while still reporting
success. -/
theorem claim4_zero_chunk_bug :
    (write true stChunked bigData []).wire =
        [WireItem.chunkHeader 0, WireItem.raw ""] ∧
      render (write true stChunked bigData []).wire = "\r\n0\r\n".data ∧
      (write true stChunked bigData []).ok = true := by
  have hlen : bigData.length = 2 ^ 32 := by
    show (List.replicate (2 ^ 32) 'a').length = 2 ^ 32
    exact List.length_replicate _ _
  have hmod : bigData.length % 2 ^ 32 = 0 := by
    rw [hlen]
    exact Nat.mod_self _
  have hgen := write_chunked true stChunked bigData [] rfl rfl
    (by rw [hlen]; norm_num)
  rw [hgen]
  rw [hmod]
  rw [List.take_zero]
  refine ⟨rfl, by decide, rfl⟩

/-- C5 counterexample: one `tryEnd` supplying four body bytes against a
declared total of three (the wire carries `Content-Length: 3`) leaves the
offset at 4, exceeding the declared total — the code does not clamp. -/
theorem claim5_counterexample :
    (tryEnd true initialState "abcd" 3 []).1.st.offset = 4 ∧
      3 < (tryEnd true initialState "abcd" 3 []).1.st.offset ∧
      WireItem.raw ("Content-Length: " ++ toString 3 ++ "\r\n\r\n") ∈
        (tryEnd true initialState "abcd" 3 []).1.wire := by
  refine ⟨?_, ?_, ?_⟩ <;> decide

/-- C5 (amended): over every sequence of `end`/`tryEnd` calls on a response in
fixed-length mode, the offset is monotonically non-decreasing and advances by
exactly the body bytes the transport accepted (status line and headers
excluded); it is not clamped to the declared total, which it exceeds when the
calls supply more body bytes than declared. -/
theorem claim5_offset_accounting (noMark : Bool) (ops : List Op) (c : Conn)
    (hops : ∀ op ∈ ops, endLike op = true) (h : c.st.writeCalled = false) :
    (run noMark c ops).st.offset + c.accepted =
        c.st.offset + (run noMark c ops).accepted ∧
      c.st.offset ≤ (run noMark c ops).st.offset ∧
      (run noMark c ops).st.writeCalled = false := by
  induction ops generalizing c with
  | nil => exact ⟨rfl, Nat.le_refl _, h⟩
  | cons op ops ih =>
      have hop : endLike op = true := hops op (by simp)
      obtain ⟨e1, e2, e3⟩ := stepOp_endLike noMark c op hop h
      obtain ⟨r1, r2, r3⟩ := ih (stepOp noMark c op)
        (fun o ho => hops o (by simp [ho])) e2
      have hrun : run noMark c (op :: ops) = run noMark (stepOp noMark c op) ops := by
        simp [run]
      rw [hrun]
      exact ⟨by omega, by omega, r3⟩

/-- C5 witness: two partial `tryEnd` calls, each fully accepted, advance the
offset by exactly the accepted bytes. -/
theorem claim5_witness :
    (run true (initConn []) [Op.tryEndB "ab" 4, Op.tryEndB "cd" 4]).st.offset +
          (initConn []).accepted =
        (initConn []).st.offset +
          (run true (initConn []) [Op.tryEndB "ab" 4, Op.tryEndB "cd" 4]).accepted ∧
      (initConn []).st.offset ≤
        (run true (initConn []) [Op.tryEndB "ab" 4, Op.tryEndB "cd" 4]).st.offset ∧
      (run true (initConn []) [Op.tryEndB "ab" 4,
        Op.tryEndB "cd" 4]).st.writeCalled = false :=
  claim5_offset_accounting true [Op.tryEndB "ab" 4, Op.tryEndB "cd" 4]
    (initConn []) (by decide) rfl

/-- C9 counterexample: on a chunked response, the second empty `end` call
re-emits the terminating zero chunk, so the wire bytes differ from a single
call. -/
theorem claim9_counterexample :
    (run true (initConn []) [Op.writeB "a", Op.endB "", Op.endB ""]).wire =
        (run true (initConn []) [Op.writeB "a", Op.endB ""]).wire ++
          [WireItem.chunkTerm] ∧
      render (run true (initConn []) [Op.writeB "a", Op.endB "", Op.endB ""]).wire ≠
        render (run true (initConn []) [Op.writeB "a", Op.endB ""]).wire := by
  refine ⟨?_, ?_⟩ <;> decide

/-- C9 (amended): for every response that has not entered chunked mode,
calling the finalize-with-empty-body path twice produces the same bytes on the
wire as calling it once: the second call emits nothing. -/
theorem claim9_end_idempotent (noMark : Bool) (st : HttpResponseData)
    (trans trans2 : Trans) (h : st.writeCalled = false) :
    render (endResponse noMark (endResponse noMark st "" trans).st "" trans2).wire
      = [] := by
  have hw : (internalEnd noMark st "" 0 false true trans).st.writeCalled = false :=
    (internalEnd_offset_accepted noMark st "" 0 false true trans h).2
  have hs : (internalEnd noMark st "" 0 false true trans).st.statusCalled = true :=
    internalEnd_statusCalled noMark st "" 0 false true trans
  have he : (internalEnd noMark st "" 0 false true trans).st.endCalled = true :=
    internalEnd_endCalled noMark st "" 0 false true trans h
  show render (internalEnd noMark
    (internalEnd noMark st "" 0 false true trans).st "" 0 false true trans2).wire = []
  rw [internalEnd_fixed noMark _ "" 0 false true trans2 hw]
  simp [hs, he, render, renderItem]

/-- C9 witness: double empty `end` on a fresh response — the second call puts
nothing on the wire. -/
theorem claim9_witness :
    render (endResponse true (endResponse true initialState "" []).st "" []).wire
      = [] :=
  claim9_end_idempotent true initialState [] [] rfl

/-- C7: with compression enabled and a non-empty client extensions offer, the
wanted options passed to the negotiator always include the client
context-takeover prohibition; permessage-deflate is enabled on the connection
iff the negotiated options carry the compression bit; and when the negotiated
options forbid server context-takeover only the shared-compressor bit of the
configured policy survives, otherwise the full configured policy is applied. -/
theorem claim7_compression_negotiation (compression : Nat) (ext : String)
    (negotiator : Nat → String → NegotiationResult)
    (hc : compression ≠ DISABLED) (he : ext.length ≠ 0) :
    (wantedOptions compression &&& CLIENT_NO_CONTEXT_TAKEOVER ≠ 0) ∧
    ((negotiateCompression compression ext negotiator).perMessageDeflate = true ↔
      (negotiator (wantedOptions compression) ext).negotiatedOptions &&&
        PERMESSAGE_DEFLATE ≠ 0) ∧
    ((negotiator (wantedOptions compression) ext).negotiatedOptions &&&
        SERVER_NO_CONTEXT_TAKEOVER ≠ 0 →
      (negotiateCompression compression ext negotiator).compressOptions =
        compression &&& SHARED_COMPRESSOR) ∧
    ((negotiator (wantedOptions compression) ext).negotiatedOptions &&&
        SERVER_NO_CONTEXT_TAKEOVER = 0 →
      (negotiateCompression compression ext negotiator).compressOptions =
        compression) := by
  refine ⟨?_, ?_, ?_, ?_⟩
  · unfold wantedOptions PERMESSAGE_DEFLATE CLIENT_NO_CONTEXT_TAKEOVER
      SERVER_NO_CONTEXT_TAKEOVER
    split <;> decide
  · unfold negotiateCompression
    rw [if_pos ⟨hc, he⟩]
    simp
  · intro hn
    unfold negotiateCompression
    rw [if_pos ⟨hc, he⟩]
    simp [hn]
  · intro hn
    unfold negotiateCompression
    rw [if_pos ⟨hc, he⟩]
    simp [hn]

/-- C7 witness: a shared-compressor upgrade against a permessage-deflate
answer — the wanted options forbid client context-takeover and compression is
enabled. -/
theorem claim7_witness :
    wantedOptions SHARED_COMPRESSOR &&& CLIENT_NO_CONTEXT_TAKEOVER ≠ 0 ∧
    (negotiateCompression SHARED_COMPRESSOR "permessage-deflate"
      negFixture).perMessageDeflate = true := by
  have h := claim7_compression_negotiation SHARED_COMPRESSOR "permessage-deflate"
    negFixture (by decide) (by decide)
  exact ⟨h.1, h.2.1.mpr (by decide)⟩

/-- C8: with a non-empty counter-offer, a dedicated compressor below the
256KB tier appends `; server_max_window_bits=<n>` with n = 9 for the 3KB/4KB
tiers, 10 for 8KB, 11 for 16KB, 12 for 32KB, 13 for 64KB and 14 for 128KB,
while the 256KB tier and the shared compressor leave the counter-offer
unchanged. -/
theorem claim8_window_bits (ext : String)
    (negotiator : Nat → String → NegotiationResult) (he : ext.length ≠ 0) :
    ((negotiator (wantedOptions DEDICATED_COMPRESSOR_3KB) ext).offer.length ≠ 0 →
      (negotiateCompression DEDICATED_COMPRESSOR_3KB ext negotiator).extHeader =
        some ((negotiator (wantedOptions DEDICATED_COMPRESSOR_3KB) ext).offer ++
          "; server_max_window_bits=" ++ toString 9)) ∧
    ((negotiator (wantedOptions DEDICATED_COMPRESSOR_4KB) ext).offer.length ≠ 0 →
      (negotiateCompression DEDICATED_COMPRESSOR_4KB ext negotiator).extHeader =
        some ((negotiator (wantedOptions DEDICATED_COMPRESSOR_4KB) ext).offer ++
          "; server_max_window_bits=" ++ toString 9)) ∧
    ((negotiator (wantedOptions DEDICATED_COMPRESSOR_8KB) ext).offer.length ≠ 0 →
      (negotiateCompression DEDICATED_COMPRESSOR_8KB ext negotiator).extHeader =
        some ((negotiator (wantedOptions DEDICATED_COMPRESSOR_8KB) ext).offer ++
          "; server_max_window_bits=" ++ toString 10)) ∧
    ((negotiator (wantedOptions DEDICATED_COMPRESSOR_16KB) ext).offer.length ≠ 0 →
      (negotiateCompression DEDICATED_COMPRESSOR_16KB ext negotiator).extHeader =
        some ((negotiator (wantedOptions DEDICATED_COMPRESSOR_16KB) ext).offer ++
          "; server_max_window_bits=" ++ toString 11)) ∧
    ((negotiator (wantedOptions DEDICATED_COMPRESSOR_32KB) ext).offer.length ≠ 0 →
      (negotiateCompression DEDICATED_COMPRESSOR_32KB ext negotiator).extHeader =
        some ((negotiator (wantedOptions DEDICATED_COMPRESSOR_32KB) ext).offer ++
          "; server_max_window_bits=" ++ toString 12)) ∧
    ((negotiator (wantedOptions DEDICATED_COMPRESSOR_64KB) ext).offer.length ≠ 0 →
      (negotiateCompression DEDICATED_COMPRESSOR_64KB ext negotiator).extHeader =
        some ((negotiator (wantedOptions DEDICATED_COMPRESSOR_64KB) ext).offer ++
          "; server_max_window_bits=" ++ toString 13)) ∧
    ((negotiator (wantedOptions DEDICATED_COMPRESSOR_128KB) ext).offer.length ≠ 0 →
      (negotiateCompression DEDICATED_COMPRESSOR_128KB ext negotiator).extHeader =
        some ((negotiator (wantedOptions DEDICATED_COMPRESSOR_128KB) ext).offer ++
          "; server_max_window_bits=" ++ toString 14)) ∧
    ((negotiator (wantedOptions DEDICATED_COMPRESSOR_256KB) ext).offer.length ≠ 0 →
      (negotiateCompression DEDICATED_COMPRESSOR_256KB ext negotiator).extHeader =
        some ((negotiator (wantedOptions DEDICATED_COMPRESSOR_256KB) ext).offer)) ∧
    ((negotiator (wantedOptions SHARED_COMPRESSOR) ext).offer.length ≠ 0 →
      (negotiateCompression SHARED_COMPRESSOR ext negotiator).extHeader =
        some ((negotiator (wantedOptions SHARED_COMPRESSOR) ext).offer)) := by
  refine ⟨?_, ?_, ?_, ?_, ?_, ?_, ?_, ?_, ?_⟩ <;> intro hoff
  · unfold negotiateCompression
    rw [if_pos ⟨by decide, he⟩]
    dsimp only
    rw [if_pos hoff, augmentedOffer_dedicated _ _ (by decide),
      (by decide : maxServerWindowBits DEDICATED_COMPRESSOR_3KB = 9)]
  · unfold negotiateCompression
    rw [if_pos ⟨by decide, he⟩]
    dsimp only
    rw [if_pos hoff, augmentedOffer_dedicated _ _ (by decide),
      (by decide : maxServerWindowBits DEDICATED_COMPRESSOR_4KB = 9)]
  · unfold negotiateCompression
    rw [if_pos ⟨by decide, he⟩]
    dsimp only
    rw [if_pos hoff, augmentedOffer_dedicated _ _ (by decide),
      (by decide : maxServerWindowBits DEDICATED_COMPRESSOR_8KB = 10)]
  · unfold negotiateCompression
    rw [if_pos ⟨by decide, he⟩]
    dsimp only
    rw [if_pos hoff, augmentedOffer_dedicated _ _ (by decide),
      (by decide : maxServerWindowBits DEDICATED_COMPRESSOR_16KB = 11)]
  · unfold negotiateCompression
    rw [if_pos ⟨by decide, he⟩]
    dsimp only
    rw [if_pos hoff, augmentedOffer_dedicated _ _ (by decide),
      (by decide : maxServerWindowBits DEDICATED_COMPRESSOR_32KB = 12)]
  · unfold negotiateCompression
    rw [if_pos ⟨by decide, he⟩]
    dsimp only
    rw [if_pos hoff, augmentedOffer_dedicated _ _ (by decide),
      (by decide : maxServerWindowBits DEDICATED_COMPRESSOR_64KB = 13)]
  · unfold negotiateCompression
    rw [if_pos ⟨by decide, he⟩]
    dsimp only
    rw [if_pos hoff, augmentedOffer_dedicated _ _ (by decide),
      (by decide : maxServerWindowBits DEDICATED_COMPRESSOR_128KB = 14)]
  · unfold negotiateCompression
    rw [if_pos ⟨by decide, he⟩]
    dsimp only
    rw [if_pos hoff, augmentedOffer_other _ _ (by decide)]
  · unfold negotiateCompression
    rw [if_pos ⟨by decide, he⟩]
    dsimp only
    rw [if_pos hoff, augmentedOffer_other _ _ (by decide)]

/-- C8 witness: the 8KB dedicated tier appends window bits 10 to a non-empty
counter-offer. -/
theorem claim8_witness :
    (negotiateCompression DEDICATED_COMPRESSOR_8KB "x" negFixture).extHeader =
      some ((negFixture (wantedOptions DEDICATED_COMPRESSOR_8KB) "x").offer ++
        "; server_max_window_bits=" ++ toString 10) :=
  (claim8_window_bits "x" negFixture (by decide)).2.2.1 (by decide)

end UWS
